import Mathlib

/-!
# Verification of the `workers-rs` Router (`src/worker/src/router.rs`)

A shallow embedding of the path-based HTTP router.  The router itself
(`Router`, `RouteContext`, `add_handler`, `run`, the registration API) is
translated from `src/worker/src/router.rs`.  The path matcher backing it
(`matchit::Node` with `at`/`at_mut`/`insert`) is an external crate whose code
is not part of this repository; it is modelled from the spec's Path Matcher
contract (§4.1): a registry of patterns (literal / `:param` / trailing `*wild`
segments), lookup with literal-over-parameter-over-wildcard precedence
evaluated segment by segment left to right, parameter extraction, merge on
re-inserting an identical pattern, and registration-time failure on
structurally conflicting patterns.
-/

namespace WorkersRouter

/-- The nine HTTP methods of the closed enumeration.  Modelled from the spec:
`crate::http::Method` is not under `src/`; the spec (§3) fixes a closed
9-method enumeration (GET, POST, PUT, PATCH, DELETE, HEAD, OPTIONS, CONNECT,
TRACE) used as the index of the fixed-size handler slot array. -/
inductive Method where
  | Get | Post | Put | Patch | Delete | Head | Options | Connect | Trace
  deriving DecidableEq, Repr

/-- `method as usize`: the slot index of a method in the 9-entry array. -/
def Method.idx : Method → Fin 9
  | .Get => 0 | .Post => 1 | .Put => 2 | .Patch => 3 | .Delete => 4
  | .Head => 5 | .Options => 6 | .Connect => 7 | .Trace => 8

/-- Modelled from the spec: `Method::all()` (not under `src/`) enumerates
every method of the closed enumeration. -/
def Method.all : List Method :=
  [.Get, .Post, .Put, .Patch, .Delete, .Head, .Options, .Connect, .Trace]

/-- An HTTP response.  Modelled from the spec: `crate::response::Response` is
not under `src/`; the spec (§6) only requires a status code and a plain-text
body for the router-synthesized failures. -/
structure Response where
  status : Nat
  body : String
  deriving DecidableEq, Repr

/-- `Result<Response>`: a handler produces a success response or an
application error; the router never inspects which. -/
abbrev WResult := Except String Response

/-- Modelled from the spec: `Response::error(msg, status)` (not under `src/`)
builds a response carrying the status code and plain-text body; the two
router-synthesized failures 404/405 are produced through it. -/
def Response.error (msg : String) (status : Nat) : WResult :=
  Except.ok { status := status, body := msg }

/-- A pending (`Future`) computation that eventually resolves to a value:
`steps` counts the suspension points crossed before `value` is available.
Awaiting propagates the eventual value unchanged. -/
structure Future (α : Type u) where
  steps : Nat
  value : α
  deriving DecidableEq, Repr

/-- An incoming request, exposing `path()` and `method()` (spec §6). -/
structure Request where
  path : String
  method : Method
  deriving DecidableEq, Repr

/-- `RouteParams`: name → matched-text mapping extracted from the path,
represented as the association list produced by the matcher. -/
abbrev RouteParams := List (String × String)

/-- Modelled from the spec: `Env` (the external capability provider,
`crate::env::Env`, not under `src/`) exposes named lookups the router only
forwards; it is carried intact from `run` to the handler. -/
structure Env where
  secrets : String → Option String
  vars : String → Option String

/-- `RouteContext<D>`: per-request bundle of shared data, the capability
provider and the parsed route params. -/
structure RouteContext (D : Type u) where
  data : D
  env : Env
  params : RouteParams

/-- `RouteContext::param`: name-keyed lookup into the route params. -/
def RouteContext.param (c : RouteContext D) (key : String) : Option String :=
  (c.params.find? (fun p => p.1 = key)).map Prod.snd

/-- A registered handler: `Sync` runs to completion immediately, `Async`
returns a pending computation that resolves to the same result type. -/
inductive Handler (D : Type u) where
  | Sync (f : Request → RouteContext D → WResult)
  | Async (f : Request → RouteContext D → Future WResult)

/-- `HandlerSet`: the fixed-size 9-entry array of optional handlers indexed
by HTTP method. -/
abbrev HandlerSet (D : Type u) := Fin 9 → Option (Handler D)

/-- The all-empty handler slot set `[None; 9]`. -/
def HandlerSet.empty : HandlerSet D := fun _ => none

/-- One segment of a parsed pattern: literal text, a named parameter, or a
named wildcard capture. -/
inductive Seg where
  | lit (s : String)
  | param (name : String)
  | wild (name : String)
  deriving DecidableEq, Repr

/-- A pattern: an ordered sequence of segments. -/
abbrev Pattern := List Seg

/-- Split a character list at `/` separators. -/
def splitSlash : List Char → List Char → List String
  | [], cur => [String.mk cur.reverse]
  | c :: cs, cur =>
      if c = '/' then String.mk cur.reverse :: splitSlash cs []
      else splitSlash cs (c :: cur)

/-- Split a path (or pattern) string into its non-empty `/`-separated
segments. -/
def segments (s : String) : List String :=
  (splitSlash s.data []).filter (fun t => t ≠ "")

/-- Join path segments back with `/` separators. -/
def joinSegs : List String → String
  | [] => ""
  | [s] => s
  | s :: rest => s ++ "/" ++ joinSegs rest

/-- Parse one pattern segment: `:name` is a parameter, `*name` a wildcard,
anything else literal text. -/
def parseSeg (s : String) : Seg :=
  match s.data with
  | ':' :: rest => .param (String.mk rest)
  | '*' :: rest => .wild (String.mk rest)
  | _ => .lit s

/-- Parse a pattern string into its segment sequence. -/
def parsePattern (p : String) : Pattern := (segments p).map parseSeg

/-- Modelled from the spec: segment-wise matching of a pattern against the
segments of a concrete path (§4.1/§6): a literal matches verbatim, `:name`
matches exactly one non-empty segment and binds it, a trailing wildcard
captures the remaining path as one value. -/
def matchSegs : Pattern → List String → Option RouteParams
  | [], [] => some []
  | [], _ :: _ => none
  | [.wild n], rest => some [(n, joinSegs rest)]
  | .wild _ :: _ :: _, _ => none
  | .lit _ :: _, [] => none
  | .param _ :: _, [] => none
  | .lit s :: ps, seg :: rest =>
      if seg = s then matchSegs ps rest else none
  | .param n :: ps, seg :: rest =>
      if seg ≠ "" then (matchSegs ps rest).map (fun l => (n, seg) :: l)
      else none

/-- The names a pattern declares, one per parameter or wildcard segment, in
order; literal segments declare nothing. -/
def declParams : Pattern → List String
  | [] => []
  | .lit _ :: ps => declParams ps
  | .param n :: ps => n :: declParams ps
  | .wild n :: ps => n :: declParams ps

/-- The precedence rank of a segment: literal before parameter before
wildcard at each branching point (spec §4.1). -/
def segRank : Seg → Nat
  | .lit _ => 0
  | .param _ => 1
  | .wild _ => 2

/-- The rank word of a pattern, compared left to right. -/
def patRank (p : Pattern) : List Nat := p.map segRank

/-- Left-to-right lexicographic comparison of rank words; a pattern ending
exactly outranks one continuing with a wildcard capture. -/
def rankLt : List Nat → List Nat → Bool
  | [], [] => false
  | [], _ :: _ => true
  | _ :: _, [] => false
  | a :: as, b :: bs => if a < b then true else if b < a then false else rankLt as bs

/-- Modelled from the spec: the Path Matcher (`matchit::Node`, not under
`src/`) as the registry of registered patterns, each with its handler slot
set, kept in registration order with one entry per distinct pattern. -/
structure Matcher (V : Type u) where
  entries : List (Pattern × V)

/-- `Node::new()`: the empty matcher. -/
def Matcher.empty : Matcher V := ⟨[]⟩

/-- One step of the lookup fold: keep the better of the best entry so far
and the next registered entry, where better means a strictly smaller rank
word (so the first registered entry wins a tie). -/
def lookStep (path : List String) (acc : Option (Pattern × V × RouteParams))
    (e : Pattern × V) : Option (Pattern × V × RouteParams) :=
  match matchSegs e.1 path with
  | none => acc
  | some ps =>
      match acc with
      | none => some (e.1, e.2, ps)
      | some (bp, bv, bps) =>
          if rankLt (patRank e.1) (patRank bp) then some (e.1, e.2, ps)
          else some (bp, bv, bps)

/-- Modelled from the spec: `lookup` / `Node::at` — resolve a concrete path
to the registered pattern matching it that is least in the
literal-before-parameter-before-wildcard precedence order (first registered
wins a tie), returning that pattern, its slot set and the extracted params. -/
def Matcher.lookupEntry (m : Matcher V) (path : List String) :
    Option (Pattern × V × RouteParams) :=
  m.entries.foldl (lookStep path) none

/-- Two patterns have the same shape when they agree segment-by-segment up to
the names of parameters and wildcards. -/
def sameShape : Pattern → Pattern → Bool
  | [], [] => true
  | .lit a :: ps, .lit b :: qs => a = b && sameShape ps qs
  | .param _ :: ps, .param _ :: qs => sameShape ps qs
  | .wild _ :: ps, .wild _ :: qs => sameShape ps qs
  | _, _ => false

/-- A wildcard segment, if present, must be the final segment (spec §4.1). -/
def wildLast : Pattern → Bool
  | [] => true
  | .wild _ :: rest => rest.isEmpty
  | .lit _ :: rest => wildLast rest
  | .param _ :: rest => wildLast rest

/-- Overlay the filled slots of `new` onto `old` (merge on re-inserting an
identical pattern: the caller's freshly filled method slots land in the
existing entry). -/
def HandlerSet.overlay (old new : HandlerSet D) : HandlerSet D :=
  fun i => match new i with
  | some h => some h
  | none => old i

/-- Modelled from the spec: `insert(pattern, slotSet)` / `Node::insert` —
fails at registration time on a malformed pattern (wildcard not last) or a
structural conflict (an existing pattern of the same shape that is not the
identical pattern); merges into the existing entry when the identical
pattern is already present; otherwise appends a new entry. -/
def Matcher.insert (m : Matcher (HandlerSet D)) (pat : Pattern)
    (v : HandlerSet D) : Except String (Matcher (HandlerSet D)) :=
  if ¬ wildLast pat then .error "invalid pattern"
  else if m.entries.any (fun e => sameShape e.1 pat && e.1 ≠ pat) then
    .error "conflicting pattern"
  else if m.entries.any (fun e => e.1 = pat) then
    .ok ⟨m.entries.map (fun e => if e.1 = pat then (e.1, e.2.overlay v) else e)⟩
  else .ok ⟨m.entries ++ [(pat, v)]⟩

/-- Mutate the slot set of the entry registered for exactly `pat`
(`at_mut`'s value reference written through). -/
def Matcher.update (m : Matcher V) (pat : Pattern) (f : V → V) : Matcher V :=
  ⟨m.entries.map (fun e => if e.1 = pat then (e.1, f e.2) else e)⟩

/-- `Router<D>`: owns the matcher (patterns → handler slot sets) and the
shared data. -/
structure Router (D : Type u) where
  handlers : Matcher (HandlerSet D)
  data : D

/-- `Router::with_data`. -/
def Router.withData (data : D) : Router D := ⟨Matcher.empty, data⟩

/-- `Router::new()`. -/
def Router.new : Router Unit := Router.withData ()

/-- `for method in methods { handler_set[method as usize] = Some(func) }`. -/
def fillSlots (func : Handler D) (methods : List Method) (hs : HandlerSet D) :
    HandlerSet D :=
  methods.foldl (fun s m => Function.update s m.idx (some func)) hs

/-- `Router::add_handler`: look the pattern string up *as a path* via
`at_mut`; on a hit, fill the requested method slots of the matched entry; on
a miss, insert a fresh slot set for the pattern (`none` models the `expect`
panic on an insertion failure). -/
def Router.addHandler (r : Router D) (pattern : String) (func : Handler D)
    (methods : List Method) : Option (Router D) :=
  match r.handlers.lookupEntry (segments pattern) with
  | some (pat, _, _) =>
      some { r with handlers := r.handlers.update pat (fillSlots func methods) }
  | none =>
      match r.handlers.insert (parsePattern pattern)
          (fillSlots func methods HandlerSet.empty) with
      | .ok m => some { r with handlers := m }
      | .error _ => none

/-- `Router::get`. -/
def Router.get (r : Router D) (pattern : String)
    (func : Request → RouteContext D → WResult) : Option (Router D) :=
  r.addHandler pattern (.Sync func) [.Get]

/-- `Router::post`. -/
def Router.post (r : Router D) (pattern : String)
    (func : Request → RouteContext D → WResult) : Option (Router D) :=
  r.addHandler pattern (.Sync func) [.Post]

/-- `Router::on`: bind the handler to every method of the enumeration. -/
def Router.on (r : Router D) (pattern : String)
    (func : Request → RouteContext D → WResult) : Option (Router D) :=
  r.addHandler pattern (.Sync func) Method.all

/-- `Router::get_async`. -/
def Router.getAsync (r : Router D) (pattern : String)
    (func : Request → RouteContext D → Future WResult) : Option (Router D) :=
  r.addHandler pattern (.Async func) [.Get]

/-- `Router::post_async`. -/
def Router.postAsync (r : Router D) (pattern : String)
    (func : Request → RouteContext D → Future WResult) : Option (Router D) :=
  r.addHandler pattern (.Async func) [.Post]

/-- `Router::on_async`. -/
def Router.onAsync (r : Router D) (pattern : String)
    (func : Request → RouteContext D → Future WResult) : Option (Router D) :=
  r.addHandler pattern (.Async func) Method.all

/-- `Router::run`: look the request path up; on a miss return 404; on a hit
with an empty slot for the request's method return 405; otherwise build the
`RouteContext` and invoke the handler — a `Sync` handler's result is returned
with no suspension, an `Async` handler's pending computation is propagated
unchanged. -/
def Router.run (r : Router D) (req : Request) (env : Env) : Future WResult :=
  match r.handlers.lookupEntry (segments req.path) with
  | some (_, value, par) =>
      let routeInfo : RouteContext D := ⟨r.data, env, par⟩
      match value req.method.idx with
      | some (.Sync f) => ⟨0, f req routeInfo⟩
      | some (.Async f) => f req routeInfo
      | none => ⟨0, Response.error "Method Not Allowed" 405⟩
  | none => ⟨0, Response.error "Not Found" 404⟩

instance : DecidableEq WResult := fun a b =>
  match a, b with
  | .ok x, .ok y =>
      if h : x = y then isTrue (by rw [h]) else isFalse (by simp [h])
  | .error x, .error y =>
      if h : x = y then isTrue (by rw [h]) else isFalse (by simp [h])
  | .ok _, .error _ => isFalse (by simp)
  | .error _, .ok _ => isFalse (by simp)

/-! ### Concrete objects used to exercise the theorems on closed inputs -/

/-- A capability provider with no bindings. -/
def envDemo : Env := ⟨fun _ => none, fun _ => none⟩

/-- A handler echoing the route parameter `x`. -/
def hParamDemo : Request → RouteContext Nat → WResult :=
  fun _ c => .ok ⟨200, "param x=" ++ ((c.param "x").getD "-")⟩

/-- A handler answering with a fixed body. -/
def hStaticDemo : Request → RouteContext Nat → WResult :=
  fun _ _ => .ok ⟨200, "static"⟩

/-- A handler echoing the route parameter `x` under another body. -/
def hEchoDemo : Request → RouteContext Nat → WResult :=
  fun _ c => .ok ⟨200, "x=" ++ ((c.param "x").getD "-")⟩

/-- A GET handler echoing the route parameter `id`. -/
def hgDemo : Request → RouteContext Nat → WResult :=
  fun _ c => .ok ⟨200, "G" ++ ((c.param "id").getD "-")⟩

/-- A POST handler with a fixed body. -/
def hpDemo : Request → RouteContext Nat → WResult :=
  fun _ _ => .ok ⟨201, "P"⟩

/-- An async handler whose pending computation resolves after two
suspension points. -/
def hAsyncDemo : Request → RouteContext Nat → Future WResult :=
  fun _ _ => ⟨2, .ok ⟨202, "later"⟩⟩

/-- The router obtained by registering `GET /a/:x` on a fresh router. -/
def routerParamOnly : Router Nat :=
  ⟨⟨[(parsePattern "/a/:x", fillSlots (.Sync hParamDemo) [.Get] HandlerSet.empty)]⟩, 0⟩

/-- `GET /a/:x` registered, then `GET /a/static` (the registration-order
direction in which the second registration merges into the first entry). -/
def routerBadOrder : Option (Router Nat) :=
  (Router.withData 0).get "/a/:x" hParamDemo >>= fun r => r.get "/a/static" hStaticDemo

/-- The slot set of `/a/:id` after registering its GET handler. -/
def slotsC2a : HandlerSet Nat := fillSlots (.Sync hgDemo) [.Get] HandlerSet.empty

/-- The slot set of `/a/:id` after registering its GET and POST handlers. -/
def slotsC2b : HandlerSet Nat := fillSlots (.Sync hpDemo) [.Post] slotsC2a

/-- The router obtained by registering `GET /a/:id` on a fresh router. -/
def routerC2a : Router Nat := ⟨⟨[(parsePattern "/a/:id", slotsC2a)]⟩, 0⟩

/-- The router obtained by registering `GET /a/:id` then `POST /a/:id`. -/
def routerC2b : Router Nat := ⟨⟨[(parsePattern "/a/:id", slotsC2b)]⟩, 0⟩

/-- The slot set filled for every method by the all-methods form. -/
def slotsOn : HandlerSet Nat := fillSlots (.Sync hStaticDemo) Method.all HandlerSet.empty

/-- The router obtained by registering `/x` through the all-methods form. -/
def routerOn : Router Nat := ⟨⟨[(parsePattern "/x", slotsOn)]⟩, 0⟩

/-- An async handler, registered below for every method, resolving after one
suspension point. -/
def hAsyncAllDemo : Request → RouteContext Nat → Future WResult :=
  fun _ _ => ⟨1, .ok ⟨203, "anyAsync"⟩⟩

/-- The slot set filled for every method by the async all-methods form. -/
def slotsOnAsync : HandlerSet Nat :=
  fillSlots (.Async hAsyncAllDemo) Method.all HandlerSet.empty

/-- The router obtained by registering `/y` through the async all-methods
form. -/
def routerOnAsync : Router Nat := ⟨⟨[(parsePattern "/y", slotsOnAsync)]⟩, 0⟩

/-- The router obtained by registering an async GET handler for `/as`. -/
def routerAsync : Router Nat :=
  ⟨⟨[(parsePattern "/as", fillSlots (.Async hAsyncDemo) [.Get] HandlerSet.empty)]⟩, 0⟩

/-- The router obtained from `routerParamOnly` after also registering
`GET /a/static`: the second registration lands in the `/a/:x` entry. -/
def routerMerged : Router Nat :=
  { routerParamOnly with
    handlers := routerParamOnly.handlers.update (parsePattern "/a/:x")
      (fillSlots (.Sync hEchoDemo) [.Get]) }

/-! ### Lemmas about segmentation, matching and the matcher -/

/-- Every segment produced by `segments` is non-empty. -/
theorem segments_ne_empty {p s : String} (h : s ∈ segments p) : s ≠ "" := by
  simp only [segments, List.mem_filter, decide_eq_true_eq] at h
  exact h.2

/-- `parseSeg` only produces a literal carrying the segment's own text. -/
theorem parseSeg_lit {s t : String} (h : parseSeg s = .lit t) : t = s := by
  unfold parseSeg at h
  split at h
  · exact absurd h (by simp)
  · exact absurd h (by simp)
  · exact (Seg.lit.injEq .. ▸ h).symm

/-- A registered pattern string, looked up again as a concrete path (what
`add_handler` does through `at_mut(pattern)`), matches its own parsed
pattern. -/
theorem matchSegs_self (l : List String) (hne : ∀ s ∈ l, s ≠ "")
    (hw : wildLast (l.map parseSeg) = true) :
    ∃ ps, matchSegs (l.map parseSeg) l = some ps := by
  induction l with
  | nil => exact ⟨[], rfl⟩
  | cons s l ih =>
      cases hps : parseSeg s with
      | lit t =>
          have ht : t = s := parseSeg_lit hps
          have hw' : wildLast (l.map parseSeg) = true := by
            simpa [wildLast, hps] using hw
          obtain ⟨ps, hm⟩ := ih (fun u hu => hne u (List.mem_cons_of_mem _ hu)) hw'
          exact ⟨ps, by simp [hps, ht, matchSegs, hm]⟩
      | param n =>
          have hw' : wildLast (l.map parseSeg) = true := by
            simpa [wildLast, hps] using hw
          obtain ⟨ps, hm⟩ := ih (fun u hu => hne u (List.mem_cons_of_mem _ hu)) hw'
          refine ⟨(n, s) :: ps, ?_⟩
          simp [hps, matchSegs, hne s (List.mem_cons_self _ _), hm]
      | wild n =>
          have hl : l = [] := by
            have h0 := hw
            simp [wildLast, hps, List.isEmpty_iff] at h0
            exact h0
          subst hl
          exact ⟨[(n, joinSegs [s])], by simp [hps, matchSegs]⟩

/-- `matchSegs_self` specialised to a parsed pattern string. -/
theorem matchSegs_parse_self (p : String) (hw : wildLast (parsePattern p) = true) :
    ∃ ps, matchSegs (parsePattern p) (segments p) = some ps :=
  matchSegs_self (segments p) (fun _ h => segments_ne_empty h)
    (by simpa [parsePattern] using hw)

/-- Any lookup result delivered by the fold comes from an entry of the list
and carries exactly the params extracted by matching that entry's pattern. -/
theorem foldl_lookStep_spec {V : Type u} (path : List String)
    (l : List (Pattern × V)) (L : List (Pattern × V)) (hl : ∀ e ∈ l, e ∈ L) :
    ∀ (acc : Option (Pattern × V × RouteParams)),
      (∀ pat v ps, acc = some (pat, v, ps) →
        matchSegs pat path = some ps ∧ (pat, v) ∈ L) →
      ∀ pat v ps, l.foldl (lookStep path) acc = some (pat, v, ps) →
        matchSegs pat path = some ps ∧ (pat, v) ∈ L := by
  induction l with
  | nil => intro acc hacc pat v ps h; exact hacc pat v ps h
  | cons e l ih =>
      intro acc hacc pat v ps h
      refine ih (fun x hx => hl x (List.mem_cons_of_mem _ hx)) (lookStep path acc e)
        ?_ pat v ps h
      intro pat' v' ps' hstep
      unfold lookStep at hstep
      split at hstep
      · exact hacc pat' v' ps' hstep
      · rename_i ps₀ hm
        split at hstep
        · cases hstep
          exact ⟨hm, hl e (List.mem_cons_self _ _)⟩
        · rename_i bp bv bps
          split at hstep
          · cases hstep
            exact ⟨hm, hl e (List.mem_cons_self _ _)⟩
          · exact hacc pat' v' ps' hstep

/-- A successful lookup returns a registered entry together with the params
its pattern extracts from the path. -/
theorem Matcher.lookupEntry_spec {V : Type u} {m : Matcher V}
    {path : List String} {pat : Pattern} {v : V} {ps : RouteParams}
    (h : m.lookupEntry path = some (pat, v, ps)) :
    matchSegs pat path = some ps ∧ (pat, v) ∈ m.entries :=
  foldl_lookStep_spec path m.entries m.entries (fun _ hx => hx) none
    (by intro pat v ps h; cases h) pat v ps h

/-- Lookup in a one-entry matcher succeeds with that entry whenever its
pattern matches the path. -/
theorem lookupEntry_singleton {V : Type u} (pat0 : Pattern) (v0 : V)
    (path : List String) {ps : RouteParams}
    (h : matchSegs pat0 path = some ps) :
    Matcher.lookupEntry ⟨[(pat0, v0)]⟩ path = some (pat0, v0, ps) := by
  simp [Matcher.lookupEntry, lookStep, h]

/-- The keys of the params extracted by a successful match are exactly the
names the pattern declares, in order. -/
theorem matchSegs_keys :
    ∀ (pat : Pattern) (segs : List String) (ps : RouteParams),
      matchSegs pat segs = some ps → ps.map Prod.fst = declParams pat := by
  intro pat
  induction pat with
  | nil =>
      intro segs ps h
      cases segs with
      | nil => cases h; rfl
      | cons a as => exact absurd h (by simp [matchSegs])
  | cons sg rest ih =>
      intro segs ps h
      cases sg with
      | lit t =>
          cases segs with
          | nil => exact absurd h (by simp [matchSegs])
          | cons a as =>
              rw [matchSegs] at h
              split at h
              · simpa [declParams] using ih as ps h
              · cases h
      | param n =>
          cases segs with
          | nil => exact absurd h (by simp [matchSegs])
          | cons a as =>
              rw [matchSegs] at h
              split at h
              · obtain ⟨ps', hps', rfl⟩ := Option.map_eq_some'.mp h
                simpa [declParams] using ih as ps' hps'
              · cases h
      | wild n =>
          cases rest with
          | nil =>
              cases h
              simp [declParams]
          | cons b bs =>
              cases segs with
              | nil => exact absurd h (by simp [matchSegs])
              | cons a as => exact absurd h (by simp [matchSegs])

/-- Updating one pattern's slot set leaves every entry for a different
pattern in place. -/
theorem Matcher.update_mem_of_ne {V : Type u} {m : Matcher V} {pat q : Pattern}
    {w : V} (hmem : (q, w) ∈ m.entries) (hne : q ≠ pat) (g : V → V) :
    (q, w) ∈ (m.update pat g).entries := by
  have h := List.mem_map_of_mem
    (fun e : Pattern × V => if e.1 = pat then (e.1, g e.2) else e) hmem
  simpa [Matcher.update, hne] using h

/-- Updating one pattern's slot set rewrites the entries holding exactly
that pattern. -/
theorem Matcher.update_mem {V : Type u} {m : Matcher V} {pat : Pattern}
    {w : V} (hmem : (pat, w) ∈ m.entries) (g : V → V) :
    (pat, g w) ∈ (m.update pat g).entries := by
  have h := List.mem_map_of_mem
    (fun e : Pattern × V => if e.1 = pat then (e.1, g e.2) else e) hmem
  simpa [Matcher.update] using h

/-- Updating a slot set changes no registered pattern: the pattern column of
the registry is untouched. -/
theorem Matcher.update_fst {V : Type u} (m : Matcher V) (pat : Pattern)
    (g : V → V) :
    (m.update pat g).entries.map Prod.fst = m.entries.map Prod.fst := by
  simp only [Matcher.update, List.map_map]
  refine List.map_congr_left ?_
  intro e _
  by_cases h : e.1 = pat <;> simp [h]

/-- Updating a slot set inserts no entry and removes none. -/
theorem Matcher.update_length {V : Type u} (m : Matcher V) (pat : Pattern)
    (g : V → V) :
    (m.update pat g).entries.length = m.entries.length := by
  simp [Matcher.update]

/-- Filling a single method's slot is a pointwise update at its index. -/
theorem fillSlots_single {D : Type u} (f : Handler D) (m : Method)
    (s : HandlerSet D) :
    fillSlots f [m] s = Function.update s m.idx (some f) := rfl

/-- Filling every method's slot leaves the same handler in each of the nine
slots. -/
theorem fillSlots_all_apply {D : Type u} (f : Handler D) (s : HandlerSet D)
    (i : Fin 9) : fillSlots f Method.all s i = some f := by
  fin_cases i <;> rfl

/-- `add_handler` when `at_mut(pattern)` hits a registered entry: the
requested method slots of that entry are filled and nothing is inserted. -/
theorem addHandler_found {D : Type u} {r : Router D} {p : String}
    {pat : Pattern} {v : HandlerSet D} {ps : RouteParams} (f : Handler D)
    (methods : List Method)
    (h : r.handlers.lookupEntry (segments p) = some (pat, v, ps)) :
    r.addHandler p f methods =
      some { r with handlers := r.handlers.update pat (fillSlots f methods) } := by
  simp [Router.addHandler, h]

/-- Registering on a fresh router inserts one entry holding the requested
method slots, provided the pattern keeps any wildcard last. -/
theorem addHandler_fresh {D : Type u} (d : D) (p : String) (f : Handler D)
    (methods : List Method) (hw : wildLast (parsePattern p) = true) :
    (Router.withData d).addHandler p f methods =
      some ⟨⟨[(parsePattern p, fillSlots f methods HandlerSet.empty)]⟩, d⟩ := by
  simp [Router.addHandler, Router.withData, Matcher.empty, Matcher.lookupEntry,
    Matcher.insert, hw]

/-- Inversion of a successful registration on a fresh router. -/
theorem register_fresh_inv {D : Type u} {d : D} {p : String} {f : Handler D}
    {methods : List Method} {r : Router D}
    (h : (Router.withData d).addHandler p f methods = some r) :
    wildLast (parsePattern p) = true ∧
      r = ⟨⟨[(parsePattern p, fillSlots f methods HandlerSet.empty)]⟩, d⟩ := by
  by_cases hw : wildLast (parsePattern p)
  · refine ⟨hw, ?_⟩
    rw [addHandler_fresh d p f methods hw] at h
    exact (Option.some_injective _ h).symm
  · exfalso
    simp [Router.addHandler, Router.withData, Matcher.empty, Matcher.lookupEntry,
      Matcher.insert, hw] at h

/-! ### The claims -/

/-- C1, counterexample: with `/a/:x` registered first (for GET, handler
`hParamDemo`) and `/a/static` registered second (for GET, handler
`hStaticDemo`), a GET request to `/a/other` does not invoke the handler
registered for `/a/:x`: `add_handler("/a/static", ..)` resolved the pattern
string as a path, hit the `/a/:x` entry and overwrote its GET slot, so the
request returns `hStaticDemo`'s response, not `hParamDemo`'s. -/
theorem c1_counterexample :
    routerBadOrder.map (fun r => r.run ⟨"/a/other", .Get⟩ envDemo) =
      some ⟨0, hStaticDemo ⟨"/a/other", .Get⟩ ⟨0, envDemo, [("x", "other")]⟩⟩ ∧
    routerBadOrder.map (fun r => r.run ⟨"/a/other", .Get⟩ envDemo) ≠
      some ⟨0, hParamDemo ⟨"/a/other", .Get⟩ ⟨0, envDemo, [("x", "other")]⟩⟩ :=
  ⟨rfl, by decide⟩

/-- C1 (amended): provided `/a/static` is registered before `/a/:x` (both
with a handler for the request's method), dispatching a request to
`/a/static` invokes the handler registered for the literal pattern and
dispatching a request to `/a/other` invokes the handler registered for
`/a/:x` with params containing `x="other"`; in the other registration order
the second registration merges into the `/a/:x` entry instead (see the
counterexample and C10). -/
theorem c1_literal_over_param (D : Type) (d : D) (env : Env) (m : Method)
    (hs hp : Request → RouteContext D → WResult) :
    ((((Router.withData d).addHandler "/a/static" (.Sync hs) [m]) >>= fun r =>
        r.addHandler "/a/:x" (.Sync hp) [m]).map
      (fun r => (r.run ⟨"/a/static", m⟩ env, r.run ⟨"/a/other", m⟩ env))) =
    some (⟨0, hs ⟨"/a/static", m⟩ ⟨d, env, []⟩⟩,
          ⟨0, hp ⟨"/a/other", m⟩ ⟨d, env, [("x", "other")]⟩⟩) := by
  cases m <;> rfl

/-- C4: when the request path matches no registered pattern, `run` returns
the router-synthesized 404 response with plain-text body "Not Found",
invoking no handler. -/
theorem c4_not_found (D : Type) (r : Router D) (req : Request) (env : Env)
    (h : r.handlers.lookupEntry (segments req.path) = none) :
    r.run req env = ⟨0, Except.ok ⟨404, "Not Found"⟩⟩ := by
  simp [Router.run, h, Response.error]

/-- C4 witness: a fresh router returns 404 for any request. -/
theorem c4_not_found_witness :
    Router.new.run ⟨"/missing", .Get⟩ envDemo = ⟨0, Except.ok ⟨404, "Not Found"⟩⟩ :=
  c4_not_found Unit Router.new ⟨"/missing", .Get⟩ envDemo rfl

/-- C5: when the request path matches a registered pattern whose slot set
has no handler for the request's method, `run` returns the
router-synthesized 405 response with plain-text body "Method Not Allowed",
invoking no handler. -/
theorem c5_method_not_allowed (D : Type) (r : Router D) (req : Request)
    (env : Env) (pat : Pattern) (v : HandlerSet D) (ps : RouteParams)
    (h : r.handlers.lookupEntry (segments req.path) = some (pat, v, ps))
    (hm : v req.method.idx = none) :
    r.run req env = ⟨0, Except.ok ⟨405, "Method Not Allowed"⟩⟩ := by
  simp [Router.run, h, hm, Response.error]

/-- C5 witness: `/a/:id` has GET and POST handlers; a PUT request to `/a/5`
returns 405. -/
theorem c5_method_not_allowed_witness :
    routerC2b.run ⟨"/a/5", .Put⟩ envDemo =
      ⟨0, Except.ok ⟨405, "Method Not Allowed"⟩⟩ :=
  c5_method_not_allowed Nat routerC2b ⟨"/a/5", .Put⟩ envDemo
    (parsePattern "/a/:id") slotsC2b [("id", "5")] rfl rfl

/-- C6: with the trailing-wildcard pattern `/files/*rest` registered for the
request's method, a request to `/files/a/b/c` invokes that handler with the
wildcard name bound to the entire remaining path, `rest="a/b/c"`. -/
theorem c6_wildcard_capture (D : Type) (d : D) (env : Env) (m : Method)
    (h : Request → RouteContext D → WResult) :
    (((Router.withData d).addHandler "/files/*rest" (.Sync h) [m]).map
      (fun r => r.run ⟨"/files/a/b/c", m⟩ env)) =
    some ⟨0, h ⟨"/files/a/b/c", m⟩ ⟨d, env, [("rest", "a/b/c")]⟩⟩ := by
  cases m <;> rfl

/-- C2: registering a GET handler for pattern `p` on a fresh router and then
a POST handler for the identical pattern string merges into exactly one
entry whose slot set has both the GET and POST slots filled (not two
entries), and a subsequent GET request whose path matches `p` invokes the
GET handler with the declared parameters extracted. -/
theorem c2_merge_method_slots (D : Type) (d : D) (p : String)
    (hg hp : Request → RouteContext D → WResult) (r₁ r₂ : Router D)
    (h₁ : (Router.withData d).get p hg = some r₁)
    (h₂ : r₁.post p hp = some r₂) :
    ∃ s : HandlerSet D,
      r₂.handlers.entries = [(parsePattern p, s)] ∧
      s Method.Get.idx = some (Handler.Sync hg) ∧
      s Method.Post.idx = some (Handler.Sync hp) ∧
      ∀ (req : Request) (env : Env) (ps : RouteParams),
        matchSegs (parsePattern p) (segments req.path) = some ps →
        req.method = .Get →
        r₂.run req env = ⟨0, hg req ⟨d, env, ps⟩⟩ := by
  simp only [Router.get] at h₁
  simp only [Router.post] at h₂
  obtain ⟨hw, hr₁⟩ := register_fresh_inv h₁
  subst hr₁
  obtain ⟨ps0, hm0⟩ := matchSegs_parse_self p hw
  have hlook := lookupEntry_singleton (parsePattern p)
    (fillSlots (.Sync hg) [.Get] HandlerSet.empty) (segments p) hm0
  rw [addHandler_found (.Sync hp) [.Post] hlook] at h₂
  injection h₂ with h₂
  subst h₂
  refine ⟨fillSlots (.Sync hp) [.Post] (fillSlots (.Sync hg) [.Get] HandlerSet.empty),
    by simp [Matcher.update], rfl, rfl, ?_⟩
  intro req env ps hm hmeth
  have hl := lookupEntry_singleton (parsePattern p)
    (fillSlots (.Sync hp) [.Post] (fillSlots (.Sync hg) [.Get] HandlerSet.empty))
    (segments req.path) hm
  have hslot : fillSlots (.Sync hp) [.Post]
      (fillSlots (.Sync hg) [.Get] HandlerSet.empty) Method.Get.idx =
      some (Handler.Sync hg) := rfl
  simp [Router.run, Matcher.update, hl, hmeth, hslot]

/-- C2 witness: `GET /a/:id` then `POST /a/:id` yields the one-entry router
`routerC2b`, and `GET /a/5` resolves the GET slot with `id="5"`. -/
theorem c2_merge_method_slots_witness :
    routerC2b.handlers.entries.length = 1 ∧
    routerC2b.run ⟨"/a/5", .Get⟩ envDemo =
      ⟨0, hgDemo ⟨"/a/5", .Get⟩ ⟨0, envDemo, [("id", "5")]⟩⟩ := by
  obtain ⟨s, hentries, hG, hP, hrun⟩ :=
    c2_merge_method_slots Nat 0 "/a/:id" hgDemo hpDemo routerC2a routerC2b rfl rfl
  exact ⟨by rw [hentries]; rfl, hrun ⟨"/a/5", .Get⟩ envDemo [("id", "5")] rfl rfl⟩

/-- C3: whenever a request path matches a registered pattern, the params the
router hands to the invoked handler through the `RouteContext` are exactly
the ones extracted by matching that pattern, keyed (in order, one entry per
segment) by the pattern's declared parameter and wildcard names — literal
segments contribute nothing. -/
theorem c3_params_exact (D : Type) (r : Router D) (req : Request) (env : Env)
    (pat : Pattern) (v : HandlerSet D) (ps : RouteParams)
    (h : r.handlers.lookupEntry (segments req.path) = some (pat, v, ps)) :
    ps.map Prod.fst = declParams pat ∧
    matchSegs pat (segments req.path) = some ps ∧
    (∀ f, v req.method.idx = some (Handler.Sync f) →
      r.run req env = ⟨0, f req ⟨r.data, env, ps⟩⟩) ∧
    (∀ f, v req.method.idx = some (Handler.Async f) →
      r.run req env = f req ⟨r.data, env, ps⟩) := by
  obtain ⟨hm, -⟩ := Matcher.lookupEntry_spec h
  exact ⟨matchSegs_keys pat _ ps hm, hm,
    fun f hf => by simp [Router.run, h, hf],
    fun f hf => by simp [Router.run, h, hf]⟩

/-- C3 witness: `/a/:id` matched by `/a/5` extracts exactly the declared
key `id`, and the GET handler receives exactly those params. -/
theorem c3_params_exact_witness :
    [("id", "5")].map Prod.fst = declParams (parsePattern "/a/:id") ∧
    routerC2b.run ⟨"/a/5", .Get⟩ envDemo =
      ⟨0, hgDemo ⟨"/a/5", .Get⟩ ⟨0, envDemo, [("id", "5")]⟩⟩ := by
  have h := c3_params_exact Nat routerC2b ⟨"/a/5", .Get⟩ envDemo
    (parsePattern "/a/:id") slotsC2b [("id", "5")] rfl
  exact ⟨h.1, h.2.2.1 hgDemo rfl⟩

/-- An all-methods registration on a fresh router (whatever the handler
variant): one entry, all nine slots holding the registered handler, and any
successful lookup resolves that handler at the request method's slot. -/
theorem onAll_slot {D : Type} {d : D} {p : String} {func : Handler D}
    {r : Router D}
    (hreg : (Router.withData d).addHandler p func Method.all = some r) :
    r.data = d ∧
    (∃ s : HandlerSet D, r.handlers.entries = [(parsePattern p, s)] ∧
      ∀ i : Fin 9, s i = some func) ∧
    ∀ (req : Request) (pat : Pattern) (v : HandlerSet D) (ps : RouteParams),
      r.handlers.lookupEntry (segments req.path) = some (pat, v, ps) →
      v req.method.idx = some func := by
  obtain ⟨hw, hr⟩ := register_fresh_inv hreg
  subst hr
  refine ⟨rfl, ⟨_, rfl, fillSlots_all_apply _ _⟩, ?_⟩
  intro req pat v ps hl
  obtain ⟨hm, hmem⟩ := Matcher.lookupEntry_spec hl
  simp only [List.mem_singleton, Prod.mk.injEq] at hmem
  obtain ⟨hpat, hv⟩ := hmem
  subst hv
  exact fillSlots_all_apply _ _ _

/-- C7: a pattern registered through the all-methods form — `on` with a Sync
handler or `on_async` with an Async handler — has every slot of its 9-entry
slot set filled with that same handler, and any matching request, whatever
its method, invokes that one handler (the Async pending computation being
returned unchanged). -/
theorem c7_on_fills_all (D : Type) (d : D) (p pa : String)
    (h : Request → RouteContext D → WResult)
    (ha : Request → RouteContext D → Future WResult)
    (r ra : Router D)
    (hreg : (Router.withData d).on p h = some r)
    (hrega : (Router.withData d).onAsync pa ha = some ra) :
    ((∃ s : HandlerSet D, r.handlers.entries = [(parsePattern p, s)] ∧
        ∀ i : Fin 9, s i = some (Handler.Sync h)) ∧
      ∀ (env : Env) (req : Request) (pat : Pattern) (v : HandlerSet D)
        (ps : RouteParams),
        r.handlers.lookupEntry (segments req.path) = some (pat, v, ps) →
        r.run req env = ⟨0, h req ⟨d, env, ps⟩⟩) ∧
    ((∃ s : HandlerSet D, ra.handlers.entries = [(parsePattern pa, s)] ∧
        ∀ i : Fin 9, s i = some (Handler.Async ha)) ∧
      ∀ (env : Env) (req : Request) (pat : Pattern) (v : HandlerSet D)
        (ps : RouteParams),
        ra.handlers.lookupEntry (segments req.path) = some (pat, v, ps) →
        ra.run req env = ha req ⟨d, env, ps⟩) := by
  simp only [Router.on] at hreg
  simp only [Router.onAsync] at hrega
  obtain ⟨hd, hent, hslot⟩ := onAll_slot hreg
  obtain ⟨hda, henta, hslota⟩ := onAll_slot hrega
  refine ⟨⟨hent, ?_⟩, ⟨henta, ?_⟩⟩
  · intro env req pat v ps hl
    have hv := hslot req pat v ps hl
    simp [Router.run, hl, hv, hd]
  · intro env req pat v ps hl
    have hv := hslota req pat v ps hl
    simp [Router.run, hl, hv, hda]

/-- C7 witness: after `on("/x", ..)` requests with three different methods
all invoke the same sync handler, and after `on_async("/y", ..)` requests
with three different methods all receive the same async handler's pending
computation unchanged. -/
theorem c7_on_fills_all_witness :
    routerOn.run ⟨"/x", .Get⟩ envDemo =
      ⟨0, hStaticDemo ⟨"/x", .Get⟩ ⟨0, envDemo, []⟩⟩ ∧
    routerOn.run ⟨"/x", .Delete⟩ envDemo =
      ⟨0, hStaticDemo ⟨"/x", .Delete⟩ ⟨0, envDemo, []⟩⟩ ∧
    routerOn.run ⟨"/x", .Trace⟩ envDemo =
      ⟨0, hStaticDemo ⟨"/x", .Trace⟩ ⟨0, envDemo, []⟩⟩ ∧
    routerOnAsync.run ⟨"/y", .Get⟩ envDemo =
      hAsyncAllDemo ⟨"/y", .Get⟩ ⟨0, envDemo, []⟩ ∧
    routerOnAsync.run ⟨"/y", .Put⟩ envDemo =
      hAsyncAllDemo ⟨"/y", .Put⟩ ⟨0, envDemo, []⟩ ∧
    routerOnAsync.run ⟨"/y", .Connect⟩ envDemo =
      hAsyncAllDemo ⟨"/y", .Connect⟩ ⟨0, envDemo, []⟩ := by
  have h := c7_on_fills_all Nat 0 "/x" "/y" hStaticDemo hAsyncAllDemo
    routerOn routerOnAsync rfl rfl
  exact ⟨h.1.2 envDemo ⟨"/x", .Get⟩ (parsePattern "/x") slotsOn [] rfl,
    h.1.2 envDemo ⟨"/x", .Delete⟩ (parsePattern "/x") slotsOn [] rfl,
    h.1.2 envDemo ⟨"/x", .Trace⟩ (parsePattern "/x") slotsOn [] rfl,
    h.2.2 envDemo ⟨"/y", .Get⟩ (parsePattern "/y") slotsOnAsync [] rfl,
    h.2.2 envDemo ⟨"/y", .Put⟩ (parsePattern "/y") slotsOnAsync [] rfl,
    h.2.2 envDemo ⟨"/y", .Connect⟩ (parsePattern "/y") slotsOnAsync [] rfl⟩

/-- C8: when a request resolves to a handler, `run` returns exactly the
handler's produced value: a Sync handler's result comes back with zero
suspensions, and an Async handler's pending computation is propagated
unchanged; the router never transforms a handler-produced result. -/
theorem c8_result_propagation (D : Type) (r : Router D) (req : Request)
    (env : Env) (pat : Pattern) (v : HandlerSet D) (ps : RouteParams)
    (h : r.handlers.lookupEntry (segments req.path) = some (pat, v, ps)) :
    (∀ f, v req.method.idx = some (Handler.Sync f) →
      r.run req env = ⟨0, f req ⟨r.data, env, ps⟩⟩) ∧
    (∀ f, v req.method.idx = some (Handler.Async f) →
      r.run req env = f req ⟨r.data, env, ps⟩) :=
  ⟨fun f hf => by simp [Router.run, h, hf],
   fun f hf => by simp [Router.run, h, hf]⟩

/-- C8 witness: an async handler's two-suspension result crosses dispatch
unchanged, and a sync handler's result (including its error capability)
comes back with zero suspensions. -/
theorem c8_result_propagation_witness :
    routerAsync.run ⟨"/as", .Get⟩ envDemo =
      hAsyncDemo ⟨"/as", .Get⟩ ⟨0, envDemo, []⟩ ∧
    routerAsync.run ⟨"/as", .Get⟩ envDemo = ⟨2, Except.ok ⟨202, "later"⟩⟩ ∧
    routerC2b.run ⟨"/a/7", .Post⟩ envDemo =
      ⟨0, hpDemo ⟨"/a/7", .Post⟩ ⟨0, envDemo, [("id", "7")]⟩⟩ := by
  have ha := c8_result_propagation Nat routerAsync ⟨"/as", .Get⟩ envDemo
    (parsePattern "/as") (fillSlots (.Async hAsyncDemo) [.Get] HandlerSet.empty)
    [] rfl
  have hb := c8_result_propagation Nat routerC2b ⟨"/a/7", .Post⟩ envDemo
    (parsePattern "/a/:id") slotsC2b [("id", "7")] rfl
  refine ⟨ha.2 hAsyncDemo rfl, ?_, hb.1 hpDemo rfl⟩
  rw [ha.2 hAsyncDemo rfl]
  rfl

/-- C9: re-registering a handler for a method slot that is already filled on
a registered pattern silently overwrites exactly that slot (last
registration wins), leaves every other method slot of that pattern's set and
every other pattern's entry unchanged, and raises no error. -/
theorem c9_overwrite_only_slot (D : Type) (r : Router D) (p : String)
    (m : Method) (s : HandlerSet D) (ps : RouteParams) (hOld hNew : Handler D)
    (hfind : r.handlers.lookupEntry (segments p) = some (parsePattern p, s, ps))
    (_hfilled : s m.idx = some hOld) :
    r.addHandler p hNew [m] =
      some { r with handlers :=
        r.handlers.update (parsePattern p) (fillSlots hNew [m]) } ∧
    (parsePattern p, Function.update s m.idx (some hNew)) ∈
      (r.handlers.update (parsePattern p) (fillSlots hNew [m])).entries ∧
    Function.update s m.idx (some hNew) m.idx = some hNew ∧
    (∀ i : Fin 9, i ≠ m.idx → Function.update s m.idx (some hNew) i = s i) ∧
    (∀ e ∈ r.handlers.entries, e.1 ≠ parsePattern p →
      e ∈ (r.handlers.update (parsePattern p) (fillSlots hNew [m])).entries) ∧
    (r.handlers.update (parsePattern p) (fillSlots hNew [m])).entries.map
        Prod.fst = r.handlers.entries.map Prod.fst := by
  refine ⟨addHandler_found hNew [m] hfind, ?_, ?_, ?_, ?_, ?_⟩
  · have hmem := (Matcher.lookupEntry_spec hfind).2
    have hmem' := Matcher.update_mem hmem (fillSlots hNew [m])
    simpa [fillSlots_single] using hmem'
  · simp [Function.update]
  · intro i hi
    exact Function.update_noteq hi _ _
  · intro e he hne
    exact Matcher.update_mem_of_ne he hne _
  · exact Matcher.update_fst _ _ _

/-- C9 witness: overwriting the already-filled GET slot of `/a/:id` with a
new handler succeeds, fills exactly the GET slot, and keeps the POST slot. -/
theorem c9_overwrite_only_slot_witness :
    routerC2b.addHandler "/a/:id" (.Sync hStaticDemo) [.Get] =
      some { routerC2b with
        handlers := Matcher.update routerC2b.handlers (parsePattern "/a/:id") (fillSlots (.Sync hStaticDemo) [.Get]) } ∧
    Function.update slotsC2b Method.Get.idx (some (.Sync hStaticDemo))
      Method.Get.idx = some (Handler.Sync hStaticDemo) ∧
    Function.update slotsC2b Method.Get.idx (some (.Sync hStaticDemo))
      Method.Post.idx = slotsC2b Method.Post.idx := by
  obtain ⟨h1, h2, h3, h4, h5, h6⟩ :=
    c9_overwrite_only_slot Nat routerC2b "/a/:id" .Get slotsC2b
      [("id", ":id")] (.Sync hgDemo) (.Sync hStaticDemo) rfl rfl
  exact ⟨h1, h3, h4 Method.Post.idx (by decide)⟩

/-- C10: a registration whose pattern string, read as a concrete path, is
matched by an already-registered pattern fills the requested method slots of
that existing entry instead of inserting a new one: no entry is added or
removed and the set of registered patterns is unchanged. -/
theorem c10_registration_merges (D : Type) (r : Router D) (p : String)
    (pat : Pattern) (v : HandlerSet D) (ps : RouteParams) (f : Handler D)
    (methods : List Method)
    (h : r.handlers.lookupEntry (segments p) = some (pat, v, ps)) :
    r.addHandler p f methods =
      some { r with handlers := r.handlers.update pat (fillSlots f methods) } ∧
    (r.handlers.update pat (fillSlots f methods)).entries.map Prod.fst =
      r.handlers.entries.map Prod.fst ∧
    (r.handlers.update pat (fillSlots f methods)).entries.length =
      r.handlers.entries.length :=
  ⟨addHandler_found f methods h, Matcher.update_fst _ _ _,
    Matcher.update_length _ _ _⟩

/-- C10 witness: with `/a/:x` registered, registering `GET /a/static` lands
in the `/a/:x` entry (still one entry, no `/a/static` entry), and a later
GET request to `/a/static` resolves the `/a/:x` entry with `x="static"` —
the echoing handler registered for `/a/static` reports `x=static`. -/
theorem c10_registration_merges_witness :
    routerParamOnly.addHandler "/a/static" (.Sync hEchoDemo) [.Get] =
      some routerMerged ∧
    routerMerged.handlers.entries.length = 1 ∧
    (routerMerged.handlers.entries.map Prod.fst =
      [parsePattern "/a/:x"]) ∧
    routerMerged.run ⟨"/a/static", .Get⟩ envDemo =
      ⟨0, Except.ok ⟨200, "x=static"⟩⟩ := by
  have h := c10_registration_merges Nat routerParamOnly "/a/static"
    (parsePattern "/a/:x")
    (fillSlots (.Sync hParamDemo) [.Get] HandlerSet.empty)
    [("x", "static")] (.Sync hEchoDemo) [.Get] rfl
  exact ⟨h.1, rfl, rfl, rfl⟩

end WorkersRouter
